import Mathlib

set_option maxRecDepth 20000

/-! Shallow embedding of the email-summarizer content pipeline:
the cleaner (`email_summarizer/preprocessor/cleaner.py`), the summarizer
engines (`email_summarizer/summarizer/engine.py`) and the orchestrator
(`email_summarizer/orchestrator/processor.py`), together with the data
model (`email_summarizer/models.py`).  External collaborators (the LLM
backends, BeautifulSoup, dateutil, the fetcher and storage) are
parameters of the embedded functions. -/

/-- ASCII whitespace, matching the regex class backslash-s and Python
str.strip on ASCII text: space, tab, newline, carriage return, vertical
tab, form feed. -/
def pyIsSpace (c : Char) : Bool :=
  c = ' ' || c = '\t' || c = '\n' || c = '\r' || c = Char.ofNat 11 || c = Char.ofNat 12

/-- Drop leading ASCII whitespace from a character list. -/
def stripLeadChars (l : List Char) : List Char := l.dropWhile pyIsSpace

/-- Drop trailing ASCII whitespace from a character list. -/
def stripTailChars (l : List Char) : List Char := (l.reverse.dropWhile pyIsSpace).reverse

/-- Python str.strip() (ASCII whitespace). -/
def pyStrip (s : String) : String := ⟨stripTailChars (stripLeadChars s.data)⟩

/-- Python str.rstrip() (ASCII whitespace). -/
def pyRstrip (s : String) : String := ⟨stripTailChars s.data⟩

/-- Python str.lower() on ASCII text. -/
def lowerStr (s : String) : String := ⟨s.data.map Char.toLower⟩

/-- Whether the first list is a leading segment of the second. -/
def listStartsWith : List Char → List Char → Bool
  | [], _ => true
  | _ :: _, [] => false
  | a :: as, b :: bs => a = b && listStartsWith as bs

/-- Whether the first list occurs as a contiguous sublist of the second. -/
def listContainsSub (needle : List Char) : List Char → Bool
  | [] => listStartsWith needle []
  | c :: rest => listStartsWith needle (c :: rest) || listContainsSub needle rest

/-- Leftmost index at which the first list occurs inside the second. -/
def subIdx (needle : List Char) : List Char → Option Nat
  | [] => if listStartsWith needle [] then some 0 else none
  | c :: rest =>
    if listStartsWith needle (c :: rest) then some 0
    else (subIdx needle rest).map (· + 1)

/-- Case-insensitive substring test (the needle is given already lowered). -/
def containsCI (hay needle : String) : Bool :=
  listContainsSub needle.data (lowerStr hay).data

/-- Regex word character (ASCII): letter, digit or underscore. -/
def isWordChar (c : Char) : Bool := c.isAlphanum || c = '_'

/-- Whether the second string starts with the first. -/
def strStartsWith (s p : String) : Bool := listStartsWith p.data s.data

/-- Whether the first string ends with the second. -/
def strEndsWith (s suffix : String) : Bool :=
  listStartsWith suffix.data.reverse s.data.reverse

/-- Accumulating split on the newline character. -/
def splitLinesAux : List Char → List Char → List String
  | acc, [] => [⟨acc.reverse⟩]
  | acc, c :: rest =>
    if c = '\n' then (⟨acc.reverse⟩ : String) :: splitLinesAux [] rest
    else splitLinesAux (c :: acc) rest

/-- Python text.split with separator newline (an empty string yields a
single empty field, separators at the ends yield empty fields). -/
def splitLines (s : String) : List String := splitLinesAux [] s.data

/-- Index of the last occurrence of a character, like Python str.rfind
(none standing for -1). -/
def rfindChar (c : Char) : List Char → Option Nat
  | [] => none
  | a :: rest =>
    match rfindChar c rest with
    | some i => some (i + 1)
    | none => if a = c then some 0 else none

/-- Leftmost index of a character, like Python str.find. -/
def findChar (c : Char) (l : List Char) : Option Nat := l.findIdx? (· = c)

/-- The opening curly brace character. -/
def lbraceChar : Char := Char.ofNat 123

/-- The closing curly brace character. -/
def rbraceChar : Char := Char.ofNat 125

/-- A calendar date, as produced by Python datetime.date. -/
structure Date where
  year : Nat
  month : Nat
  day : Nat
deriving DecidableEq

/-- Date comparison, lexicographic on (year, month, day), mirroring the
total order on Python date objects. -/
def Date.le (a b : Date) : Prop :=
  a.year < b.year ∨
    (a.year = b.year ∧ (a.month < b.month ∨ (a.month = b.month ∧ a.day ≤ b.day)))

/-- Strict date comparison. -/
def Date.lt (a b : Date) : Prop := Date.le a b ∧ a ≠ b

instance : DecidableRel Date.le := fun a b => by
  unfold Date.le; exact inferInstance

instance : DecidableRel Date.lt := fun a b => by
  unfold Date.lt; exact inferInstance

instance : IsTotal Date Date.le := by
  constructor; intro a b; unfold Date.le; omega

instance : IsTrans Date Date.le := by
  constructor; intro a b c hab hbc; unfold Date.le at *; omega

theorem Date.le_antisymm {a b : Date} (h1 : Date.le a b) (h2 : Date.le b a) : a = b := by
  cases a; cases b
  simp only [Date.le] at h1 h2
  simp only [Date.mk.injEq]
  omega

instance : IsTrans Date Date.lt := by
  constructor
  intro a b c hab hbc
  refine ⟨Trans.trans hab.1 hbc.1, ?_⟩
  intro h
  subst h
  exact hbc.2 (Date.le_antisymm hbc.1 hab.1)

/-- Leap year test, as in the Python calendar rules. -/
def isLeap (y : Nat) : Bool := (y % 4 = 0 && y % 100 ≠ 0) || y % 400 = 0

/-- Number of days in a month. -/
def daysInMonth (y m : Nat) : Nat :=
  if m = 2 then (if isLeap y then 29 else 28)
  else if m = 4 || m = 6 || m = 9 || m = 11 then 30
  else 31

/-- Numeric value of a decimal digit character. -/
def digitVal (c : Char) : Nat := c.toNat - 48

/-- Value of a run of decimal digit characters. -/
def digitsVal (l : List Char) : Nat := l.foldl (fun a c => 10 * a + digitVal c) 0

/-- Python date.fromisoformat on the dashed YYYY-MM-DD form: exactly ten
characters, all-digit fields, and a valid calendar date (year at least 1);
anything else raises, modelled as none. -/
def fromisoformat (s : String) : Option Date :=
  match s.data with
  | [y1, y2, y3, y4, h1, m1, m2, h2, d1, d2] =>
    if h1 = '-' ∧ h2 = '-' ∧ [y1, y2, y3, y4, m1, m2, d1, d2].all Char.isDigit then
      let y := digitsVal [y1, y2, y3, y4]
      let m := digitsVal [m1, m2]
      let d := digitsVal [d1, d2]
      if 1 ≤ y ∧ 1 ≤ m ∧ m ≤ 12 ∧ 1 ≤ d ∧ d ≤ daysInMonth y m then
        some ⟨y, m, d⟩
      else none
    else none
  | _ => none

/-- A timestamp, as produced by Python datetime.datetime; only the fields
the pipeline reads are carried. -/
structure DateTime where
  year : Nat
  month : Nat
  day : Nat
  hour : Nat
  minute : Nat
deriving DecidableEq

/-- Zero-padded decimal rendering of a natural number. -/
def padNat (w n : Nat) : String :=
  let s := toString n
  ⟨List.replicate (w - s.length) '0'⟩ ++ s

/-- Python strftime with format %Y-%m-%d %H:%M. -/
def strftimeYmdHM (dt : DateTime) : String :=
  padNat 4 dt.year ++ "-" ++ padNat 2 dt.month ++ "-" ++ padNat 2 dt.day ++ " " ++
    padNat 2 dt.hour ++ ":" ++ padNat 2 dt.minute

/-- JSON values, as returned by Python json.loads.  Numbers keep their
source lexeme (the pipeline never inspects numeric values).  Objects keep
key insertion order with later duplicate keys overwriting, as a Python
dict does. -/
inductive Json where
  | null : Json
  | bool (b : Bool) : Json
  | num (lexeme : String) : Json
  | str (s : String) : Json
  | arr (elems : List Json) : Json
  | obj (entries : List (String × Json)) : Json

/-- Insert a key/value pair into an object the way a Python dict literal
builds up: an existing key keeps its position and gets the new value, a
new key is appended. -/
def objInsert (entries : List (String × Json)) (k : String) (v : Json) :
    List (String × Json) :=
  if entries.any (fun e => e.fst = k) then
    entries.map (fun e => if e.fst = k then (k, v) else e)
  else entries ++ [(k, v)]

/-- Lookup of a key in an object (keys are unique after objInsert). -/
def objFind (entries : List (String × Json)) (k : String) : Option Json :=
  (entries.find? (fun e => e.fst = k)).map Prod.snd

/-- JSON insignificant whitespace. -/
def jsonSkipWs (l : List Char) : List Char :=
  l.dropWhile (fun c => c = ' ' || c = '\t' || c = '\n' || c = '\r')

/-- Value of a hexadecimal digit character. -/
def hexVal (c : Char) : Option Nat :=
  if c.isDigit then some (c.toNat - 48)
  else if 'a' ≤ c ∧ c ≤ 'f' then some (c.toNat - 87)
  else if 'A' ≤ c ∧ c ≤ 'F' then some (c.toNat - 55)
  else none

/-- Body of a JSON string literal after the opening quote, with the usual
escapes; strict mode rejects raw control characters.  A backslash-u escape
is decoded to the corresponding scalar when valid (surrogate pairs are not
recombined; no claim exercises them). -/
def parseJStringAux : Nat → List Char → Option (List Char × List Char)
  | 0, _ => none
  | _ + 1, [] => none
  | f + 1, c :: rest =>
    if c = '"' then some ([], rest)
    else if c = '\\' then
      match rest with
      | [] => none
      | e :: rest2 =>
        let cont := fun (ch : Char) (rs : List Char) =>
          (parseJStringAux f rs).map (fun pr => (ch :: pr.1, pr.2))
        if e = '"' then cont '"' rest2
        else if e = '\\' then cont '\\' rest2
        else if e = '/' then cont '/' rest2
        else if e = 'b' then cont (Char.ofNat 8) rest2
        else if e = 'f' then cont (Char.ofNat 12) rest2
        else if e = 'n' then cont '\n' rest2
        else if e = 'r' then cont '\r' rest2
        else if e = 't' then cont '\t' rest2
        else if e = 'u' then
          match rest2 with
          | a :: b :: c2 :: d :: rest3 =>
            match hexVal a, hexVal b, hexVal c2, hexVal d with
            | some ha, some hb, some hc, some hd =>
              cont (Char.ofNat (((ha * 16 + hb) * 16 + hc) * 16 + hd)) rest3
            | _, _, _, _ => none
          | _ => none
        else none
    else if c.toNat < 32 then none
    else (parseJStringAux f rest).map (fun pr => (c :: pr.1, pr.2))

/-- Optional exponent part of a JSON number lexeme. -/
def parseJExp (cs : List Char) : List Char × List Char :=
  match cs with
  | e :: r =>
    if e = 'e' || e = 'E' then
      let (es, r2) := match r with
        | '+' :: r2 => (['+'], r2)
        | '-' :: r2 => (['-'], r2)
        | r2 => (([] : List Char), r2)
      let ds := r2.takeWhile Char.isDigit
      if ds = [] then ([], cs)
      else (e :: (es ++ ds), r2.drop ds.length)
    else ([], cs)
  | [] => ([], cs)

/-- Lexeme of a JSON number starting at the head of the list, following
the JSON grammar (with the Python extensions Infinity, -Infinity, NaN). -/
def parseJNum (cs : List Char) : Option (String × List Char) :=
  if listStartsWith "Infinity".data cs then some ("Infinity", cs.drop 8)
  else if listStartsWith "NaN".data cs then some ("NaN", cs.drop 3)
  else if listStartsWith "-Infinity".data cs then some ("-Infinity", cs.drop 9)
  else
    let (sign, cs1) := match cs with
      | '-' :: r => (['-'], r)
      | r => (([] : List Char), r)
    let intRun := cs1.takeWhile Char.isDigit
    if intRun = [] then none
    else
      let intPart := if intRun.headD '0' = '0' then ['0'] else intRun
      let cs2 := cs1.drop intPart.length
      let fr : Option (List Char × List Char) :=
        match cs2 with
        | '.' :: r =>
          let ds := r.takeWhile Char.isDigit
          if ds = [] then none
          else some ('.' :: ds, r.drop ds.length)
        | _ => some ([], cs2)
      match fr with
      | none => none
      | some (fracPart, cs3) =>
        let (expPart, cs4) := parseJExp cs3
        some (⟨sign ++ intPart ++ fracPart ++ expPart⟩, cs4)

/-- Mode of the single fueled JSON parsing function: a value, the element
list of an array (accumulator so far), or the member list of an object. -/
inductive JMode where
  | value : JMode
  | elems (acc : List Json) : JMode
  | members (acc : List (String × Json)) : JMode

/-- Recursive JSON parsing on fuel (structural, so that the kernel can
evaluate it).  Returns the parsed value and the unconsumed remainder. -/
def parseJ : Nat → JMode → List Char → Option (Json × List Char)
  | 0, _, _ => none
  | f + 1, JMode.value, cs =>
    let cs := jsonSkipWs cs
    match cs with
    | [] => none
    | c :: rest =>
      if c = '"' then
        (parseJStringAux (rest.length + 1) rest).map (fun pr => (Json.str ⟨pr.1⟩, pr.2))
      else if c = lbraceChar then
        let rest2 := jsonSkipWs rest
        match rest2 with
        | d :: rest3 => if d = rbraceChar then some (Json.obj [], rest3)
                        else parseJ f (JMode.members []) rest2
        | [] => none
      else if c = '[' then
        let rest2 := jsonSkipWs rest
        match rest2 with
        | d :: rest3 => if d = ']' then some (Json.arr [], rest3)
                        else parseJ f (JMode.elems []) rest2
        | [] => none
      else if listStartsWith "true".data cs then some (Json.bool true, cs.drop 4)
      else if listStartsWith "false".data cs then some (Json.bool false, cs.drop 5)
      else if listStartsWith "null".data cs then some (Json.null, cs.drop 4)
      else (parseJNum cs).map (fun pr => (Json.num pr.1, pr.2))
  | f + 1, JMode.elems acc, cs =>
    match parseJ f JMode.value cs with
    | none => none
    | some (v, rest) =>
      let rest2 := jsonSkipWs rest
      match rest2 with
      | ',' :: rest3 => parseJ f (JMode.elems (acc ++ [v])) rest3
      | d :: rest3 =>
        if d = ']' then some (Json.arr (acc ++ [v]), rest3) else none
      | [] => none
  | f + 1, JMode.members acc, cs =>
    let cs := jsonSkipWs cs
    match cs with
    | '"' :: rest =>
      match parseJStringAux (rest.length + 1) rest with
      | none => none
      | some (key, rest2) =>
        match jsonSkipWs rest2 with
        | ':' :: rest3 =>
          match parseJ f JMode.value rest3 with
          | none => none
          | some (v, rest4) =>
            let acc2 := objInsert acc ⟨key⟩ v
            match jsonSkipWs rest4 with
            | ',' :: rest5 => parseJ f (JMode.members acc2) rest5
            | d :: rest5 =>
              if d = rbraceChar then some (Json.obj acc2, rest5) else none
            | [] => none
        | _ => none
    | _ => none

/-- Python json.loads: parse one JSON document and demand that only
whitespace follows; any failure raises json.JSONDecodeError, modelled as
none. -/
def jsonLoads (s : String) : Option Json :=
  match parseJ (2 * s.length + 8) JMode.value s.data with
  | some (v, rest) => if jsonSkipWs rest = [] then some v else none
  | none => none

/-- A raised Python exception, carried as its class name and message.
The except clauses of the source match on the class name (the only
subclass relation exercised is that json.JSONDecodeError is a ValueError,
which the embedding handles where it matters). -/
structure PyExn where
  ty : String
  msg : String
deriving DecidableEq

/-- Attachment metadata (models.Attachment). -/
structure Attachment where
  filename : String
  size : Nat
  mime_type : String
deriving DecidableEq

/-- Raw email from a provider (models.RawEmail). -/
structure RawEmail where
  message_id : String
  sender : String
  subject : String
  received_at : DateTime
  body_html : String
  body_text : String
  attachments : List Attachment
  labels : List String
deriving DecidableEq

/-- Cleaned and preprocessed email (models.CleanedEmail). -/
structure CleanedEmail where
  message_id : String
  sender : String
  subject : String
  received_at : DateTime
  cleaned_body : String
  attachments : List String
  original_length : Nat
  cleaned_length : Nat
deriving DecidableEq

/-- User feedback on a summary (models.Feedback). -/
structure Feedback where
  rating : Int
  comment : Option String
  created_at : DateTime
deriving DecidableEq

/-- Email summary (models.EmailSummary).  The summary and actions slots
are dynamically typed in the source (whatever the backend JSON held), so
they are carried as Json values; the string-producing paths wrap their
strings in Json.str. -/
structure EmailSummary where
  message_id : String
  sender : String
  subject : String
  received_at : DateTime
  summary : Json
  actions : Json
  deadlines : List Date
  created_at : DateTime
  model_used : String
  feedback : Option Feedback

/-- Error that occurred during processing (models.ProcessingError). -/
structure ProcessingError where
  message_id : Option String
  error_type : String
  error_message : String
  timestamp : DateTime
deriving DecidableEq

/-- Result of a batch run (models.ProcessingResult). -/
structure ProcessingResult where
  total_fetched : Nat
  total_processed : Nat
  total_failed : Nat
  dry_run : Bool
  errors : List ProcessingError
deriving DecidableEq

/-- SummarizerEngine._truncate_body.  The float comparison
last_period > max_chars * 0.8 of the source is modelled by the exact
comparison 5 * last_period > 4 * max_chars, which agrees with the IEEE
double computation for every list index arising here. -/
def truncate_body (max_tokens : Nat) (body : String) : String :=
  let max_chars := max_tokens * 4
  if body.length ≤ max_chars then body
  else
    let truncated := body.data.take max_chars
    let truncated :=
      match rfindChar '.' truncated with
      | some i => if 5 * i > 4 * max_chars then truncated.take (i + 1) else truncated
      | none => truncated
    ⟨truncated⟩ ++ "\n\n[Email truncated...]"

/-- SummarizerEngine.PROMPT_TEMPLATE after .format with the five values
substituted (the template itself has no other brace placeholders). -/
def renderPromptTemplate (subject sender received_at attachment_list cleaned_body : String) : String :=
  "You are an email summarization assistant. Analyze the following email and produce a JSON object with these keys:\n- \"summary\": 1-3 sentences describing the email's purpose and any requested next steps\n- \"actions\": array of short action strings (what the recipient should do)\n- \"deadlines\": array of ISO date strings (YYYY-MM-DD) or empty array if no deadlines\n\nEmail Details:\nSubject: " ++ subject ++ "\nFrom: " ++ sender ++ "\nDate: " ++ received_at ++ "\nAttachments: " ++ attachment_list ++ "\n\nEmail Body:\n" ++ cleaned_body ++ "\n\nOutput only valid JSON. No additional text."

/-- SummarizerEngine._build_prompt. -/
def build_prompt (max_tokens : Nat) (email : CleanedEmail) : String :=
  let attachment_list :=
    if email.attachments.isEmpty then "None"
    else String.intercalate ", " email.attachments
  renderPromptTemplate email.subject email.sender (strftimeYmdHM email.received_at)
    attachment_list (truncate_body max_tokens email.cleaned_body)

/-- Python membership test key in data, for the dynamically typed JSON
value: dict looks at keys, list at elements, str at substrings; other
values raise TypeError. -/
def pyInJson (key : String) (data : Json) : Except PyExn Bool :=
  match data with
  | Json.obj entries => .ok (entries.any (fun e => e.fst = key))
  | Json.arr elems =>
    .ok (elems.any (fun e => match e with | Json.str s => s = key | _ => false))
  | Json.str s => .ok (listContainsSub key.data s.data)
  | _ => .error ⟨"TypeError", "argument is not iterable"⟩

/-- Python subscript data[key] with a string key: dict lookup (KeyError
when absent); other values raise TypeError. -/
def pyGetItem (data : Json) (key : String) : Except PyExn Json :=
  match data with
  | Json.obj entries =>
    match objFind entries key with
    | some v => .ok v
    | none => .error ⟨"KeyError", key⟩
  | _ => .error ⟨"TypeError", "indices must be integers"⟩

/-- Python iteration over a dynamically typed JSON value: list yields
elements, str yields one-character strings, dict yields keys; other
values raise TypeError. -/
def pyIterJson (data : Json) : Except PyExn (List Json) :=
  match data with
  | Json.arr xs => .ok xs
  | Json.str s => .ok (s.data.map (fun c => Json.str ⟨[c]⟩))
  | Json.obj entries => .ok (entries.map (fun e => Json.str e.fst))
  | _ => .error ⟨"TypeError", "object is not iterable"⟩

/-- The deadline loop of SummarizerEngine._parse_response: each entry is
parsed independently with date.fromisoformat, keeping source order; an
entry that fails to parse (including a non-string entry, whose failure is
a TypeError) is dropped by the bare except. -/
def collectDeadlines (elems : List Json) : List Date :=
  elems.foldl
    (fun acc e =>
      match e with
      | Json.str s =>
        match fromisoformat s with
        | some d => acc ++ [d]
        | none => acc
      | _ => acc)
    []

/-- The substring of the response from the first opening brace to the
last closing brace, as sliced by _parse_response. -/
def jsonSubstring (response_text : String) : Option String :=
  match findChar lbraceChar response_text.data, rfindChar rbraceChar response_text.data with
  | some json_start, some json_end => some ⟨(response_text.data.take (json_end + 1)).drop json_start⟩
  | _, _ => none

/-- SummarizerEngine._parse_response.  datetime.now() is the now
parameter and the virtual _get_model_name() the model_name parameter.
Parse failures surface as ValueError (the source wraps
json.JSONDecodeError into ValueError as well), so no error of class
JSONDecodeError ever escapes this function. -/
def parse_response (now : DateTime) (model_name : String) (response_text : String)
    (email : CleanedEmail) : Except PyExn EmailSummary :=
  match jsonSubstring response_text with
  | none => .error ⟨"ValueError", "No JSON found in response"⟩
  | some json_str =>
    match jsonLoads json_str with
    | none => .error ⟨"ValueError", "Invalid JSON response"⟩
    | some data =>
      match pyInJson "summary" data with
      | .error e => .error e
      | .ok hasSummary =>
        if hasSummary = false then .error ⟨"ValueError", "Missing summary field"⟩
        else
          match (do
            let actions ← (do
              let hasActions ← pyInJson "actions" data
              if hasActions then pyGetItem data "actions" else pure (Json.arr []))
            let deadlinesVal ← (do
              let hasDeadlines ← pyInJson "deadlines" data
              if hasDeadlines then pyGetItem data "deadlines" else pure (Json.arr []))
            let deadlineElems ← pyIterJson deadlinesVal
            let summaryVal ← pyGetItem data "summary"
            pure (summaryVal, actions, collectDeadlines deadlineElems) :
              Except PyExn (Json × Json × List Date)) with
          | .error e => .error e
          | .ok (summaryVal, actionsVal, deadlines) =>
            .ok { message_id := email.message_id, sender := email.sender,
                  subject := email.subject, received_at := email.received_at,
                  summary := summaryVal, actions := actionsVal,
                  deadlines := deadlines, created_at := now,
                  model_used := model_name, feedback := none }

/-- The remote summarizer object: provider and model name (the api key
plays no role in the modelled behavior; the constructor sets the model to
gpt-3.5-turbo for the openai provider). -/
structure RemoteSummarizer where
  provider : String
  model : String
deriving DecidableEq

/-- RemoteSummarizer._get_model_name. -/
def RemoteSummarizer.modelName (r : RemoteSummarizer) : String :=
  r.provider ++ "/" ++ r.model

/-- The repair prompt of RemoteSummarizer._retry_with_json_fix. -/
def renderFixPrompt (previous_response : String) : String :=
  "The previous response was not valid JSON:\n" ++ previous_response ++
    "\n\nPlease provide ONLY a valid JSON object with these exact keys:\n- \"summary\": string (1-3 sentences)\n- \"actions\": array of strings\n- \"deadlines\": array of date strings in YYYY-MM-DD format\n\nNo additional text, just the JSON object."

/-- The fallback EmailSummary built in the except branch of
RemoteSummarizer._retry_with_json_fix. -/
def fallbackSummary (r : RemoteSummarizer) (now : DateTime) (email : CleanedEmail) : EmailSummary :=
  { message_id := email.message_id, sender := email.sender, subject := email.subject,
    received_at := email.received_at,
    summary := Json.str ("Email from " ++ email.sender ++ " regarding: " ++ email.subject),
    actions := Json.arr [], deadlines := [], created_at := now,
    model_used := r.modelName, feedback := none }

/-- RemoteSummarizer._retry_with_json_fix.  The backend call is the
backend parameter (applied to the repair prompt); the surrounding except
Exception catches every failure, so the function always returns a
summary. -/
def retry_with_json_fix (r : RemoteSummarizer) (backend : String → Except PyExn String)
    (now : DateTime) (email : CleanedEmail) (previous_response : String) : EmailSummary :=
  match backend (renderFixPrompt previous_response) with
  | .error _ => fallbackSummary r now email
  | .ok response_text =>
    match parse_response now r.modelName response_text email with
    | .ok s => s
    | .error _ => fallbackSummary r now email

/-- RemoteSummarizer.summarize.  The first except clause only catches
errors of class json.JSONDecodeError; when one of those does arrive from
the backend call itself, the handler reads the local response_text before
it was bound, which raises NameError.  A parse failure arrives as a
ValueError and therefore falls to the final except clause, which
re-raises it. -/
def RemoteSummarizer.summarize (r : RemoteSummarizer) (backend : String → Except PyExn String)
    (now : DateTime) (max_tokens : Nat) (email : CleanedEmail) : Except PyExn EmailSummary :=
  let prompt := build_prompt max_tokens email
  match backend prompt with
  | .error e =>
    if e.ty = "JSONDecodeError" then
      .error ⟨"NameError", "name response_text is not defined"⟩
    else .error e
  | .ok response_text =>
    match parse_response now r.modelName response_text email with
    | .ok s => .ok s
    | .error e =>
      if e.ty = "JSONDecodeError" then
        .ok (retry_with_json_fix r backend now email response_text)
      else .error e

/-- Whether a regex word boundary sits before the current position, given
the previous character (none at the start of the text); all our patterns
start and end with word characters, so the boundary holds exactly when
the neighbour is absent or a non-word character. -/
def atBoundary (prev : Option Char) : Bool :=
  match prev with
  | none => true
  | some c => !isWordChar c

/-- Word boundary after a match: the next character is absent or
non-word. -/
def endBoundary (l : List Char) : Bool :=
  match l.head? with
  | none => true
  | some c => !isWordChar c

/-- Consume exactly n digits, returning the remainder. -/
def takeDigits : Nat → List Char → Option (List Char)
  | 0, l => some l
  | _ + 1, [] => none
  | n + 1, c :: rest => if c.isDigit then takeDigits n rest else none

/-- Match length of the ISO date pattern (word boundary, four digits,
dash, two digits, dash, two digits, word boundary) at the head of the
list. -/
def matchIsoAt (prev : Option Char) (l : List Char) : Option Nat :=
  if !atBoundary prev then none
  else
    match takeDigits 4 l with
    | none => none
    | some l1 =>
      match l1 with
      | '-' :: l2 =>
        match takeDigits 2 l2 with
        | none => none
        | some l3 =>
          match l3 with
          | '-' :: l4 =>
            match takeDigits 2 l4 with
            | none => none
            | some l5 => if endBoundary l5 then some 10 else none
          | _ => none
      | _ => none

/-- One backtracking alternative of the US slash date pattern: a digits,
slash, b digits, slash, four digits, word boundary. -/
def matchUsCombo (a b : Nat) (l : List Char) : Bool :=
  match takeDigits a l with
  | none => false
  | some l1 =>
    match l1 with
    | '/' :: l2 =>
      match takeDigits b l2 with
      | none => false
      | some l3 =>
        match l3 with
        | '/' :: l4 =>
          match takeDigits 4 l4 with
          | none => false
          | some l5 => endBoundary l5
        | _ => false
    | _ => false

/-- Match length of the US slash date pattern with one-or-two digit day
and month fields, trying the greedy alternatives in backtracking order. -/
def matchUsAt (prev : Option Char) (l : List Char) : Option Nat :=
  if !atBoundary prev then none
  else if matchUsCombo 2 2 l then some 10
  else if matchUsCombo 2 1 l then some 9
  else if matchUsCombo 1 2 l then some 9
  else if matchUsCombo 1 1 l then some 8
  else none

/-- The three-letter month prefixes of the long-month pattern. -/
def monthPrefixes : List String :=
  ["jan", "feb", "mar", "apr", "may", "jun", "jul", "aug", "sep", "oct", "nov", "dec"]

/-- One day/comma alternative of the long-month pattern after the month
word and its following space: day digits, optional comma, space, four
digits, word boundary.  Returns the consumed length. -/
def matchMonthTail (day : Nat) (useComma : Bool) (l : List Char) : Option Nat :=
  match takeDigits day l with
  | none => none
  | some l1 =>
    let afterComma : Option (Nat × List Char) :=
      if useComma then
        match l1 with
        | ',' :: r => some (1, r)
        | _ => none
      else some (0, l1)
    match afterComma with
    | none => none
    | some (commaLen, l2) =>
      match l2 with
      | ' ' :: l3 =>
        match takeDigits 4 l3 with
        | none => none
        | some l4 => if endBoundary l4 then some (day + commaLen + 1 + 4) else none
      | _ => none

/-- Match length of the long-month date pattern (case-insensitive month
prefix, a greedy run of letters, space, one-or-two digit day, optional
comma, space, four-digit year, word boundaries), alternatives in
backtracking order. -/
def matchMonthAt (prev : Option Char) (l : List Char) : Option Nat :=
  if !atBoundary prev then none
  else
    let ll := l.map Char.toLower
    if monthPrefixes.any (fun p => listStartsWith p.data ll) then
      let letters := (l.drop 3).takeWhile (fun c => c.isAlpha)
      let afterLetters := l.drop (3 + letters.length)
      match afterLetters with
      | ' ' :: l1 =>
        let tail :=
          match matchMonthTail 2 true l1 with
          | some n => some n
          | none =>
            match matchMonthTail 2 false l1 with
            | some n => some n
            | none =>
              match matchMonthTail 1 true l1 with
              | some n => some n
              | none => matchMonthTail 1 false l1
        tail.map (fun n => 3 + letters.length + 1 + n)
      | _ => none
    else none

/-- re.findall scanning: leftmost non-overlapping matches, advancing one
character when no match starts at the current position (every match of
our patterns is non-empty). -/
def findAllAux (m : Option Char → List Char → Option Nat) :
    Nat → Option Char → List Char → List String
  | 0, _, _ => []
  | _ + 1, _, [] => []
  | f + 1, prev, c :: rest =>
    match m prev (c :: rest) with
    | some len =>
      let matched := (c :: rest).take len
      (⟨matched⟩ : String) :: findAllAux m f matched.getLast? ((c :: rest).drop len)
    | none => findAllAux m f (some c) rest

/-- re.findall of one date pattern over a text. -/
def findAllPat (m : Option Char → List Char → Option Nat) (s : String) : List String :=
  findAllAux m (s.length + 1) none s.data

/-- LocalSummarizer._extract_deadlines.  The dateutil parser.parse
call is the external parseDate parameter and date.today() the today
parameter; the scan keeps only dates at or after today, deduplicates as
it accumulates, sorts ascending and caps at three. -/
def extract_deadlines (parseDate : String → Option Date) (today : Date) (text : String) :
    List Date :=
  let cands := findAllPat matchIsoAt text ++ findAllPat matchUsAt text ++
    findAllPat matchMonthAt text
  let deadlines := cands.foldl
    (fun acc c =>
      match parseDate c with
      | some d => if d ∉ acc ∧ Date.le today d then acc ++ [d] else acc
      | none => acc)
    []
  (List.insertionSort Date.le deadlines).take 3

/-- The sentence split of LocalSummarizer._extract_actions: re.split on a
punctuation character followed by a maximal whitespace run. -/
def splitSentencesAux : Nat → List Char → List Char → List String
  | 0, acc, l => [⟨acc.reverse ++ l⟩]
  | _ + 1, acc, [] => [⟨acc.reverse⟩]
  | f + 1, acc, c :: rest =>
    if (c = '.' || c = '!' || c = '?') && (match rest.head? with
        | some r => pyIsSpace r
        | none => false) then
      (⟨acc.reverse⟩ : String) :: splitSentencesAux f [] (rest.dropWhile pyIsSpace)
    else splitSentencesAux f (c :: acc) rest

/-- re.split of the action pattern over a text. -/
def splitSentences (s : String) : List String :=
  splitSentencesAux (s.length + 1) [] s.data

/-- The fixed keyword list of LocalSummarizer._extract_actions. -/
def action_keywords : List String :=
  ["please", "could you", "can you", "need to", "should", "must", "review", "send", "update"]

/-- LocalSummarizer._extract_actions: keep the sentences whose lowercase
form contains a keyword, stripped, capped at five. -/
def extract_actions (text : String) : List String :=
  (((splitSentences text).filter
    (fun s => action_keywords.any (fun k => listContainsSub k.data (lowerStr s).data))).map
      pyStrip).take 5

/-- LocalSummarizer.summarize.  The transformers pipeline call is the
infer parameter (applied to the constructed input text); its failures
propagate.  The summary slot carries the model output as a string. -/
def local_summarize (model_name : String) (max_tokens : Nat)
    (infer : String → Except PyExn String) (parseDate : String → Option Date)
    (today : Date) (now : DateTime) (email : CleanedEmail) : Except PyExn EmailSummary :=
  let input_text := "Subject: " ++ email.subject ++ "\n\n" ++
    truncate_body max_tokens email.cleaned_body
  match infer input_text with
  | .error e => .error e
  | .ok summary_text =>
    .ok { message_id := email.message_id, sender := email.sender,
          subject := email.subject, received_at := email.received_at,
          summary := Json.str summary_text,
          actions := Json.arr ((extract_actions email.cleaned_body).map Json.str),
          deadlines := extract_deadlines parseDate today email.cleaned_body,
          created_at := now, model_used := "local/" ++ model_name, feedback := none }

/-- Whether the needle occurs in the haystack at some index at or past
the given one. -/
def hasSubFromIdx (needle hay : List Char) (minIdx : Nat) : Bool :=
  listContainsSub needle (hay.drop minIdx)

/-- Sequential search used for the multi-gap quote patterns: each needle
must occur at least one character after the end of the previous one.
Taking the leftmost occurrence at each step is complete for existence. -/
def chainFind (hay : List Char) : Nat → List (List Char) → Bool
  | _, [] => true
  | start, n :: ns =>
    match subIdx n (hay.drop start) with
    | none => false
    | some i => chainFind hay (start + i + n.length + 1) ns

/-- The quote pattern On .+ wrote: anchored at the start of the line,
case-insensitively: the line starts with on-space, and space-wrote-colon
occurs after at least one further character. -/
def matchOnWrote (line : String) : Bool :=
  let ll := (lowerStr line).data
  listStartsWith "on ".data ll && hasSubFromIdx " wrote:".data ll 4

/-- The Outlook quote header pattern From:.+Sent:.+To:.+Subject:
anchored at the start of the line, case-insensitively. -/
def matchOutlookHeader (line : String) : Bool :=
  let ll := (lowerStr line).data
  listStartsWith "from:".data ll &&
    chainFind ll 6 ["sent:".data, "to:".data, "subject:".data]

/-- The quote pattern of an ISO date followed by an angle-bracket email:
four digits, dash, two digits, dash, two digits at the start of the line,
then with gaps a less-than sign, an at sign, and greater-than-colon. -/
def matchDateEmailHeader (line : String) : Bool :=
  let l := line.data
  (match takeDigits 4 l with
   | none => false
   | some l1 =>
     match l1 with
     | '-' :: l2 =>
       match takeDigits 2 l2 with
       | none => false
       | some l3 =>
         match l3 with
         | '-' :: l4 => (takeDigits 2 l4).isSome
         | _ => false
     | _ => false) &&
    chainFind l 11 ["<".data, "@".data, ">:".data]

/-- EmailPreprocessor.QUOTE_PATTERNS applied to one line with re.search. -/
def isQuoteHeader (line : String) : Bool :=
  matchOnWrote line || matchOutlookHeader line || matchDateEmailHeader line

/-- The line loop of EmailPreprocessor.remove_quoted_replies, carrying
the in_quote flag. -/
def removeQuotedAux : Bool → List String → List String
  | _, [] => []
  | in_quote, line :: rest =>
    if isQuoteHeader line then removeQuotedAux true rest
    else if strStartsWith (pyStrip line) ">" then removeQuotedAux in_quote rest
    else if in_quote ∧ pyStrip line ≠ "" then
      (if (pyStrip line).length < 5 ∨ strStartsWith line "    " then
        removeQuotedAux in_quote rest
      else line :: removeQuotedAux false rest)
    else if in_quote then removeQuotedAux in_quote rest
    else line :: removeQuotedAux in_quote rest

/-- EmailPreprocessor.remove_quoted_replies. -/
def remove_quoted_replies (text : String) : String :=
  String.intercalate "\n" (removeQuotedAux false (splitLines text))

/-- The signature pattern of a double dash followed only by whitespace to
the end of the line. -/
def matchDashEnd (line : String) : Bool :=
  strEndsWith (pyRstrip line) "--"

/-- The second dash signature pattern, which demands a literal newline
after the dashes and therefore never fires on a single split line. -/
def matchDashNl (line : String) : Bool :=
  let l := line.data
  (List.range l.length).any (fun p =>
    (p = 0 || l.getD (p - 1) ' ' = '\n') &&
    listStartsWith "--".data (l.drop p) &&
    ((l.drop (p + 2)).takeWhile pyIsSpace).contains '\n')

/-- A closing word alone on the line with an optional comma and trailing
whitespace, case-insensitively (the word is given lowered). -/
def closingWordMatch (word : String) (line : String) : Bool :=
  let ll := (lowerStr line).data
  if listStartsWith word.data ll then
    let rest := ll.drop word.data.length
    let rest2 := match rest with
      | ',' :: r => r
      | r => r
    rest2.all pyIsSpace
  else false

/-- EmailPreprocessor.SIGNATURE_PATTERNS applied to one line with
re.search, in source order. -/
def sigDelimiterMatch (line : String) : Bool :=
  matchDashEnd line || matchDashNl line ||
  containsCI line "sent from my" || containsCI line "get outlook for" ||
  closingWordMatch "regards" line || closingWordMatch "best regards" line ||
  closingWordMatch "thanks" line || closingWordMatch "thank you" line ||
  closingWordMatch "sincerely" line || closingWordMatch "cheers" line ||
  closingWordMatch "best" line

/-- One backtracking alternative of the phone pattern: three digits, an
optional dash-or-dot, three digits, an optional dash-or-dot, four digits,
word boundary at the end. -/
def phoneCombo (sep1 sep2 : Bool) (l : List Char) : Bool :=
  match takeDigits 3 l with
  | none => false
  | some l1 =>
    let after1 : Option (List Char) :=
      if sep1 then
        match l1 with
        | c :: r => if c = '-' || c = '.' then some r else none
        | [] => none
      else some l1
    match after1 with
    | none => false
    | some l2 =>
      match takeDigits 3 l2 with
      | none => false
      | some l3 =>
        let after2 : Option (List Char) :=
          if sep2 then
            match l3 with
            | c :: r => if c = '-' || c = '.' then some r else none
            | [] => none
          else some l3
        match after2 with
        | none => false
        | some l4 =>
          match takeDigits 4 l4 with
          | none => false
          | some l5 => endBoundary l5

/-- Whether the phone pattern matches at the head of the list. -/
def phoneMatchAt (prev : Option Char) (l : List Char) : Bool :=
  atBoundary prev &&
    (phoneCombo true true l || phoneCombo true false l ||
     phoneCombo false true l || phoneCombo false false l)

/-- Scan for a phone pattern match at any position, tracking the
previous character for the leading word boundary. -/
def phoneScan : Option Char → List Char → Bool
  | _, [] => false
  | prev, c :: rest => phoneMatchAt prev (c :: rest) || phoneScan (some c) rest

/-- re.search of the phone pattern over a line. -/
def phonePatternFound (line : String) : Bool := phoneScan none line.data

/-- re.search of the contact indicator pattern over a line,
case-insensitively. -/
def contactIndicator (line : String) : Bool :=
  containsCI line "@" || containsCI line "www." || containsCI line "http" ||
  containsCI line "phone" || containsCI line "mobile" || containsCI line "office"

/-- Detection test applied to line i in the remove_signature scan: a
delimiter pattern, or (only past sixty percent of the lines, the float
product len(lines) times 0.6 being modelled by the exact 5 i > 3 n) a
phone-pattern line with at least two contact-indicator lines among
lines[i : i + 3]. -/
def sigDetectAt (lines : List String) (i : Nat) (line : String) : Bool :=
  sigDelimiterMatch line ||
  (decide (5 * i > 3 * lines.length) && phonePatternFound line &&
   decide (2 ≤ ((lines.drop i).take 3).countP contactIndicator))

/-- The scan loop of EmailPreprocessor.remove_signature: top to bottom,
stopping at the first line where detection fires. -/
def findSigStartAux (lines : List String) : Nat → List String → Option Nat
  | _, [] => none
  | i, line :: rest =>
    if sigDetectAt lines i line then some i
    else findSigStartAux lines (i + 1) rest

/-- EmailPreprocessor.remove_signature. -/
def remove_signature (text : String) : String :=
  let lines := splitLines text
  match findSigStartAux lines 0 lines with
  | some i => String.intercalate "\n" (lines.take i)
  | none => text

/-- The substitution re.sub of newline, whitespace-run, newline,
whitespace-run, one-or-more newlines by two newlines: a match starts at a
newline whose maximal whitespace run holds at least three newlines and
extends to just past the last newline of that run (the greedy
backtracking outcome); scanning resumes after the match. -/
def collapseNlAux : Nat → List Char → List Char
  | 0, l => l
  | _ + 1, [] => []
  | f + 1, c :: rest =>
    if c = '\n' then
      let run := (c :: rest).takeWhile pyIsSpace
      if 3 ≤ run.countP (fun x => x = '\n') then
        match rfindChar '\n' run with
        | some k => '\n' :: '\n' :: collapseNlAux f ((c :: rest).drop (k + 1))
        | none => c :: collapseNlAux f rest
      else c :: collapseNlAux f rest
    else c :: collapseNlAux f rest

/-- EmailPreprocessor.extract_main_content: collapse blank-line runs,
strip each line, drop leading and trailing empty lines, join and trim. -/
def extract_main_content (text : String) : String :=
  let collapsed : String := ⟨collapseNlAux text.data.length text.data⟩
  let lines := (splitLines collapsed).map pyStrip
  let lines := lines.dropWhile (fun l => l = "")
  let lines := (lines.reverse.dropWhile (fun l => l = "")).reverse
  pyStrip (String.intercalate "\n" lines)

/-- EmailPreprocessor.html_to_text.  The soupText parameter is the
BeautifulSoup extraction (strip script, style, head and meta, then visible
text with newline separators); when that library call raises, the source
returns the html unchanged, so this function never fails. -/
def html_to_text (soupText : String → Except PyExn String) (html : String) : String :=
  if html = "" then ""
  else
    match soupText html with
    | .ok t => t
    | .error _ => html

/-- The body selection and steps two to five of
EmailPreprocessor.clean_email: prefer the html body, convert it to text,
then strip quotes, signatures and normalize whitespace. -/
def cleaned_body_text (soupText : String → Except PyExn String) (raw : RawEmail) : String :=
  let body0 := if raw.body_html ≠ "" then html_to_text soupText raw.body_html
    else raw.body_text
  extract_main_content (remove_signature (remove_quoted_replies body0))

/-- EmailPreprocessor.clean_email.  Total: every code path of the source
returns (the library call inside html_to_text is guarded by a broad
except), and an empty cleaned body is replaced by the placeholder. -/
def clean_email (soupText : String → Except PyExn String) (raw : RawEmail) : CleanedEmail :=
  let body0 := if raw.body_html ≠ "" then raw.body_html else raw.body_text
  let original_length := body0.length
  let body := cleaned_body_text soupText raw
  let cleaned_length := body.length
  let bodyFinal := if pyStrip body = "" then "[Empty email body]" else body
  { message_id := raw.message_id, sender := raw.sender, subject := raw.subject,
    received_at := raw.received_at, cleaned_body := bodyFinal,
    attachments := raw.attachments.map Attachment.filename,
    original_length := original_length, cleaned_length := cleaned_length }

/-- The four pipeline stages as the orchestrator sees them: the fetched
batch (or a fetch failure), and the per-item clean, summarize and store
calls, each able to raise. -/
structure Stages where
  fetch : Except PyExn (List RawEmail)
  clean : RawEmail → Except PyExn CleanedEmail
  summarize : CleanedEmail → Except PyExn EmailSummary
  store : EmailSummary → Except PyExn Unit

/-- The per-item loop of EmailOrchestrator.process_emails, threading the
processed count, failed count and error list; every error appended
carries the message id of the failing item. -/
def processLoop (st : Stages) (dry_run : Bool) (now : DateTime) :
    List RawEmail → Nat × Nat × List ProcessingError → Nat × Nat × List ProcessingError
  | [], acc => acc
  | raw :: rest, (p, f, errs) =>
    match st.clean raw with
    | .error e =>
      processLoop st dry_run now rest (p, f + 1, errs ++ [⟨some raw.message_id, e.ty, e.msg, now⟩])
    | .ok cleaned =>
      if dry_run then processLoop st dry_run now rest (p + 1, f, errs)
      else
        match st.summarize cleaned with
        | .error e =>
          processLoop st dry_run now rest (p, f + 1, errs ++ [⟨some raw.message_id, e.ty, e.msg, now⟩])
        | .ok s =>
          match st.store s with
          | .error e =>
            processLoop st dry_run now rest (p, f + 1, errs ++ [⟨some raw.message_id, e.ty, e.msg, now⟩])
          | .ok _ => processLoop st dry_run now rest (p + 1, f, errs)

/-- EmailOrchestrator.process_emails: a fetch failure is batch-fatal and
reported as a single error with absent message id and zero counters;
otherwise the loop runs over the whole batch.  datetime.now() inside
ProcessingError is the now parameter. -/
def process_emails (st : Stages) (now : DateTime) (dry_run : Bool) : ProcessingResult :=
  match st.fetch with
  | .error e =>
    { total_fetched := 0, total_processed := 0, total_failed := 0,
      dry_run := dry_run, errors := [⟨none, e.ty, e.msg, now⟩] }
  | .ok raws =>
    let res := processLoop st dry_run now raws (0, 0, [])
    { total_fetched := raws.length, total_processed := res.1,
      total_failed := res.2.1, dry_run := dry_run, errors := res.2.2 }

/-- Outcome of one item of the batch: none when it completes its required
stages, the raised exception otherwise.  This is the per-item summary the
loop theorems are stated against. -/
def itemOutcome (st : Stages) (dry_run : Bool) (raw : RawEmail) : Option PyExn :=
  match st.clean raw with
  | .error e => some e
  | .ok cleaned =>
    if dry_run then none
    else
      match st.summarize cleaned with
      | .error e => some e
      | .ok s =>
        match st.store s with
        | .error e => some e
        | .ok _ => none

theorem processLoop_eq (st : Stages) (dry : Bool) (now : DateTime) (raws : List RawEmail)
    (p f : Nat) (errs : List ProcessingError) :
    processLoop st dry now raws (p, f, errs) =
      (p + (raws.filter (fun raw => itemOutcome st dry raw = none)).length,
       f + (raws.filter (fun raw => (itemOutcome st dry raw).isSome)).length,
       errs ++ raws.filterMap (fun raw => (itemOutcome st dry raw).map
         (fun e => (⟨some raw.message_id, e.ty, e.msg, now⟩ : ProcessingError)))) := by
  induction raws generalizing p f errs with
  | nil => simp [processLoop]
  | cons raw rest ih =>
    cases hc : st.clean raw with
    | error e =>
      simp [processLoop, hc, ih, itemOutcome, List.filter_cons, List.filterMap_cons]
      omega
    | ok cleaned =>
      cases dry with
      | true =>
        simp [processLoop, hc, ih, itemOutcome, List.filter_cons, List.filterMap_cons]
        omega
      | false =>
        cases hs : st.summarize cleaned with
        | error e =>
          simp [processLoop, hc, hs, ih, itemOutcome, List.filter_cons, List.filterMap_cons]
          omega
        | ok s =>
          cases hst : st.store s with
          | error e =>
            simp [processLoop, hc, hs, hst, ih, itemOutcome, List.filter_cons,
              List.filterMap_cons]
            omega
          | ok u =>
            cases u
            simp [processLoop, hc, hs, hst, ih, itemOutcome, List.filter_cons,
              List.filterMap_cons]
            omega

theorem filterPartitionLength {α : Type} (g : α → Option PyExn) (l : List α) :
    (l.filter (fun a => g a = none)).length + (l.filter (fun a => (g a).isSome)).length
      = l.length := by
  induction l with
  | nil => simp
  | cons a rest ih =>
    cases hg : g a <;> simp [List.filter_cons, hg] <;> omega

theorem filterMapOptLength {α γ : Type} (g : α → Option PyExn) (h : α → PyExn → γ) (l : List α) :
    (l.filterMap (fun a => (g a).map (h a))).length
      = (l.filter (fun a => (g a).isSome)).length := by
  induction l with
  | nil => simp
  | cons a rest ih =>
    cases hg : g a <;> simp [List.filter_cons, List.filterMap_cons, hg, ih]

/-- Claim C2: when the fetch stage succeeds, every item of the batch is
attempted; an item whose Clean, Summarize or Store stage raises is
recorded as a ProcessingError carrying that item's message id, the
exception class name and message, the errors appear in processing order,
and the remaining items are still processed (the processed count is
exactly the number of items whose required stages completed). -/
theorem claimC2 (st : Stages) (now : DateTime) (dry_run : Bool) (raws : List RawEmail)
    (hfetch : st.fetch = .ok raws) :
    (process_emails st now dry_run).errors =
      raws.filterMap (fun raw => (itemOutcome st dry_run raw).map
        (fun e => (⟨some raw.message_id, e.ty, e.msg, now⟩ : ProcessingError))) ∧
    (process_emails st now dry_run).total_processed =
      (raws.filter (fun raw => itemOutcome st dry_run raw = none)).length ∧
    (process_emails st now dry_run).total_failed =
      (raws.filter (fun raw => (itemOutcome st dry_run raw).isSome)).length := by
  unfold process_emails
  rw [hfetch]
  simp [processLoop_eq]

/-- Claim C3: a fetch-stage exception yields a ProcessingResult with all
three counters zero, the given dry_run flag, and exactly one error whose
message id is absent. -/
theorem claimC3 (st : Stages) (now : DateTime) (dry_run : Bool) (e : PyExn)
    (hfetch : st.fetch = .error e) :
    process_emails st now dry_run =
      { total_fetched := 0, total_processed := 0, total_failed := 0,
        dry_run := dry_run, errors := [⟨none, e.ty, e.msg, now⟩] } := by
  unfold process_emails
  rw [hfetch]

/-- Claim C10: when the fetch stage succeeds, each fetched item
increments exactly one of the two counters, so processed plus failed
equals fetched, and the error list has exactly one entry per failed
item. -/
theorem claimC10 (st : Stages) (now : DateTime) (dry_run : Bool) (raws : List RawEmail)
    (hfetch : st.fetch = .ok raws) :
    (process_emails st now dry_run).total_processed + (process_emails st now dry_run).total_failed
      = (process_emails st now dry_run).total_fetched ∧
    (process_emails st now dry_run).errors.length = (process_emails st now dry_run).total_failed := by
  unfold process_emails
  rw [hfetch]
  simp only [processLoop_eq]
  constructor
  · simpa using filterPartitionLength (fun raw => itemOutcome st dry_run raw) raws
  · simpa using filterMapOptLength (fun raw => itemOutcome st dry_run raw)
      (fun raw e => (⟨some raw.message_id, e.ty, e.msg, now⟩ : ProcessingError)) raws

def wNow : DateTime := ⟨2025, 6, 1, 9, 30⟩

def wRaw1 : RawEmail := ⟨"m1", "alice@example.com", "Report", wNow, "", "Hello. Please review.", [], []⟩

def wRaw2 : RawEmail := ⟨"m2", "bob@example.com", "Invoice", wNow, "", "Pay soon.", [], []⟩

def wCleaned : CleanedEmail := ⟨"m1", "alice@example.com", "Report", wNow, "Hello.", [], 21, 6⟩

def wSummary : EmailSummary :=
  ⟨"m1", "alice@example.com", "Report", wNow, Json.str "ok", Json.arr [], [], wNow, "local/bart", none⟩

def wStages : Stages :=
  { fetch := .ok [wRaw1, wRaw2],
    clean := fun raw => if raw.message_id = "m2" then .error ⟨"ValueError", "boom"⟩ else .ok wCleaned,
    summarize := fun _ => .ok wSummary,
    store := fun _ => .ok () }

def wStagesFail : Stages :=
  { fetch := .error ⟨"HttpError", "network down"⟩,
    clean := fun _ => .ok wCleaned,
    summarize := fun _ => .ok wSummary,
    store := fun _ => .ok () }

/-- Witness for claim C2 at a concrete batch: the first item succeeds and
the second fails in Clean, producing exactly one error entry for m2 while
m1 is still processed. -/
theorem claimC2_witness :
    (process_emails wStages wNow false).errors = [⟨some "m2", "ValueError", "boom", wNow⟩] ∧
    (process_emails wStages wNow false).total_processed = 1 := by
  have h := claimC2 wStages wNow false [wRaw1, wRaw2] rfl
  exact ⟨by rw [h.1]; rfl, by rw [h.2.1]; rfl⟩

/-- Witness for claim C3 at a concrete failing fetch. -/
theorem claimC3_witness :
    process_emails wStagesFail wNow true =
      { total_fetched := 0, total_processed := 0, total_failed := 0,
        dry_run := true, errors := [⟨none, "HttpError", "network down", wNow⟩] } := by
  exact claimC3 wStagesFail wNow true ⟨"HttpError", "network down"⟩ rfl

/-- Witness for claim C10 at a concrete batch of two items with one
failure. -/
theorem claimC10_witness :
    (process_emails wStages wNow false).total_processed
        + (process_emails wStages wNow false).total_failed
      = (process_emails wStages wNow false).total_fetched ∧
    (process_emails wStages wNow false).errors.length
      = (process_emails wStages wNow false).total_failed := by
  exact claimC10 wStages wNow false [wRaw1, wRaw2] rfl

/-- Claim C4: clean_email never fails (the embedding is a total function,
mirroring the source, whose only fallible call sits behind the broad
except inside html_to_text), its cleaned body is never the empty string,
and whenever the text is empty after body selection, HTML conversion,
quote removal, signature removal and whitespace normalization, the
cleaned body is exactly the placeholder string. -/
theorem claimC4 (soupText : String → Except PyExn String) (raw : RawEmail) :
    (clean_email soupText raw).cleaned_body ≠ "" ∧
    (pyStrip (cleaned_body_text soupText raw) = "" →
      (clean_email soupText raw).cleaned_body = "[Empty email body]") := by
  constructor
  · by_cases h : pyStrip (cleaned_body_text soupText raw) = ""
    · simp [clean_email, h]
    · simp only [clean_email, h, if_false]
      intro hb
      apply h
      rw [hb]
      rfl
  · intro h
    simp [clean_email, h]

def wSoup : String → Except PyExn String := fun _ => .ok ""

def wRawBlank : RawEmail := ⟨"m0", "erin@example.com", "Hi", wNow, "", " ", [], []⟩

/-- Witness for claim C4: a raw email whose text body is a single space
cleans to the placeholder. -/
theorem claimC4_witness :
    pyStrip (cleaned_body_text wSoup wRawBlank) = "" ∧
    (clean_email wSoup wRawBlank).cleaned_body = "[Empty email body]" :=
  ⟨rfl, (claimC4 wSoup wRawBlank).2 rfl⟩

def c1Email : CleanedEmail :=
  ⟨"m9", "carol@example.com", "Budget", wNow, "Numbers attached.", [], 17, 17⟩

def c1Backend : String → Except PyExn String :=
  fun _ => .ok "I cannot produce structured output"

def c1Remote : RemoteSummarizer := ⟨"openai", "gpt-3.5-turbo"⟩

/-- Claim C1 (code bug): with a backend whose every response has no JSON
object, RemoteSummarizer.summarize raises ValueError instead of returning
the fallback summary.  _parse_response raises ValueError for every parse
failure, while the except clause of summarize only catches
json.JSONDecodeError, so the single-repair-then-fallback machinery of
_retry_with_json_fix is unreachable and the error propagates. -/
theorem claimC1_code_raises :
    RemoteSummarizer.summarize c1Remote c1Backend wNow 512 c1Email =
      .error ⟨"ValueError", "No JSON found in response"⟩ := rfl

theorem rfindChar_none {c : Char} {l : List Char} (h : rfindChar c l = none) :
    ∀ j, j < l.length → l[j]?.getD ' ' ≠ c := by
  induction l with
  | nil => intro j hj; simp at hj
  | cons a rest ih =>
    simp only [rfindChar] at h
    cases hr : rfindChar c rest with
    | some i => rw [hr] at h; exact absurd h (by simp)
    | none =>
      rw [hr] at h
      by_cases ha : a = c
      · rw [if_pos ha] at h; exact absurd h (by simp)
      · intro j hj
        match j with
        | 0 => simpa using ha
        | j' + 1 => simpa using ih hr j' (by simpa using Nat.lt_of_succ_lt_succ hj)

theorem rfindChar_getD {c : Char} {l : List Char} {L : Nat} (h : rfindChar c l = some L) :
    L < l.length ∧ l[L]?.getD ' ' = c := by
  induction l generalizing L with
  | nil => simp [rfindChar] at h
  | cons a rest ih =>
    simp only [rfindChar] at h
    cases hr : rfindChar c rest with
    | some i =>
      rw [hr] at h
      obtain ⟨hi, hg⟩ := ih hr
      have hL : L = i + 1 := by
        injection h with h0
        omega
      subst hL
      exact ⟨by simpa using Nat.succ_lt_succ hi, by simpa using hg⟩
    | none =>
      rw [hr] at h
      by_cases ha : a = c
      · rw [if_pos ha] at h
        have hL : L = 0 := by injection h with h0; omega
        subst hL
        simpa using ha
      · rw [if_neg ha] at h; exact absurd h (by simp)

theorem rfindChar_maxi {c : Char} {l : List Char} {L : Nat} (h : rfindChar c l = some L) :
    ∀ j, L < j → j < l.length → l[j]?.getD ' ' ≠ c := by
  induction l generalizing L with
  | nil => simp [rfindChar] at h
  | cons a rest ih =>
    simp only [rfindChar] at h
    cases hr : rfindChar c rest with
    | some i =>
      rw [hr] at h
      have hL : L = i + 1 := by injection h with h0; omega
      subst hL
      intro j hj hjl
      match j with
      | 0 => omega
      | j' + 1 =>
        have := ih hr j' (by omega) (by simpa using Nat.lt_of_succ_lt_succ hjl)
        simpa using this
    | none =>
      rw [hr] at h
      by_cases ha : a = c
      · rw [if_pos ha] at h
        have hL : L = 0 := by injection h with h0; omega
        subst hL
        intro j hj hjl
        match j with
        | 0 => omega
        | j' + 1 =>
          have := rfindChar_none hr j' (by simpa using Nat.lt_of_succ_lt_succ hjl)
          simpa using this
      · rw [if_neg ha] at h; exact absurd h (by simp)

/-- The truncation rule as the claim words it (at or after eighty percent
of the budget): under the character budget B the body is embedded
unchanged; over it, when a sentence-ending period exists in the first B
characters at an index i with 5 i at least 4 B, the text is cut
inclusively at the last period of the prefix, else hard-cut at B, and the
truncation marker line is appended in both truncated cases. -/
def truncate_body_spec_atOrAfter (max_tokens : Nat) (body : String) : String :=
  let B := max_tokens * 4
  if body.length ≤ B then body
  else
    let pre := body.data.take B
    let late := (List.range pre.length).any (fun i =>
      (pre.getD i ' ' == '.') && decide (5 * i ≥ 4 * B))
    let cut :=
      if late then
        match rfindChar '.' pre with
        | some L => pre.take (L + 1)
        | none => pre
      else pre
    (⟨cut⟩ : String) ++ "\n\n[Email truncated...]"

/-- The corrected truncation rule: the sentence-boundary cut fires only
for a period strictly after eighty percent of the budget, 5 i > 4 B. -/
def truncate_body_spec_strict (max_tokens : Nat) (body : String) : String :=
  let B := max_tokens * 4
  if body.length ≤ B then body
  else
    let pre := body.data.take B
    let late := (List.range pre.length).any (fun i =>
      (pre.getD i ' ' == '.') && decide (5 * i > 4 * B))
    let cut :=
      if late then
        match rfindChar '.' pre with
        | some L => pre.take (L + 1)
        | none => pre
      else pre
    (⟨cut⟩ : String) ++ "\n\n[Email truncated...]"

def c6Body : String := "aaaaaaaaaaaaaaaa.bbbb"

/-- Claim C6 (counterexample): with max_input_tokens 5 the budget is
B = 20 and the last period of the prefix sits at index 16 = 0.8 B; the
source compares strictly and hard-cuts, while the claim as written (at or
after eighty percent) cuts at the period, so the two disagree. -/
theorem claimC6_counterexample :
    truncate_body 5 c6Body ≠ truncate_body_spec_atOrAfter 5 c6Body := by decide

/-- Claim C6 (amended: the sentence-boundary cut fires only when the last
period of the first B characters lies strictly after eighty percent of B,
the index comparison being 5 i > 4 B): for every body and every token
limit, _truncate_body equals the corrected spec-side description. -/
theorem claimC6 (max_tokens : Nat) (body : String) :
    truncate_body max_tokens body = truncate_body_spec_strict max_tokens body := by
  unfold truncate_body truncate_body_spec_strict
  by_cases hlen : body.length ≤ max_tokens * 4
  · simp [hlen]
  · simp only [hlen, if_false]
    cases hr : rfindChar '.' (body.data.take (max_tokens * 4)) with
    | none =>
      have hlate : ((List.range (body.data.take (max_tokens * 4)).length).any fun i =>
          ((body.data.take (max_tokens * 4)).getD i ' ' == '.') &&
            decide (5 * i > 4 * (max_tokens * 4))) = false := by
        rw [List.any_eq_false]
        intro i hi
        simp only [List.mem_range] at hi
        simp [List.getD_eq_getElem?_getD, rfindChar_none hr i hi]
      rw [hlate]
      simp
    | some L =>
      obtain ⟨hL, hgetD⟩ := rfindChar_getD hr
      by_cases hc : 5 * L > 4 * (max_tokens * 4)
      · have hlate : ((List.range (body.data.take (max_tokens * 4)).length).any fun i =>
            ((body.data.take (max_tokens * 4)).getD i ' ' == '.') &&
              decide (5 * i > 4 * (max_tokens * 4))) = true := by
          rw [List.any_eq_true]
          exact ⟨L, List.mem_range.mpr hL, by simp [List.getD_eq_getElem?_getD, hgetD, hc]⟩
        rw [hlate]
        simp [hc]
      · have hlate : ((List.range (body.data.take (max_tokens * 4)).length).any fun i =>
            ((body.data.take (max_tokens * 4)).getD i ' ' == '.') &&
              decide (5 * i > 4 * (max_tokens * 4))) = false := by
          rw [List.any_eq_false]
          intro i hi
          simp only [List.mem_range] at hi
          by_cases hip : (body.data.take (max_tokens * 4))[i]?.getD ' ' = '.'
          · have hiL : i ≤ L := by
              by_contra hgt
              exact rfindChar_maxi hr i (by omega) hi hip
            have hni : ¬ (5 * i > 4 * (max_tokens * 4)) := by omega
            simp [hni]
          · simp [List.getD_eq_getElem?_getD, hip]
        rw [hlate]
        simp [hc]

/-- The signature start as the claim describes it: the least line index
at which the given detection fires, scanning top to bottom. -/
def sigStartSpec (detect : List String → Nat → String → Bool) (lines : List String) :
    Option Nat :=
  (List.range lines.length).find? (fun i => detect lines i (lines[i]?.getD ""))

/-- Signature removal as the claim describes it, parameterized by the
detection test: all lines strictly before the earliest detected start,
everything when nothing is detected. -/
def remove_signature_specWith (detect : List String → Nat → String → Bool)
    (text : String) : String :=
  let lines := splitLines text
  match sigStartSpec detect lines with
  | some i => String.intercalate "\n" (lines.take i)
  | none => text

/-- Detection with the phone heuristic reading the claim gives: at least
two contact-indicator lines among the next three lines after the phone
line, lines i+1 to i+3. -/
def sigDetectNextThree (lines : List String) (i : Nat) (line : String) : Bool :=
  sigDelimiterMatch line ||
  (decide (5 * i > 3 * lines.length) && phonePatternFound line &&
   decide (2 ≤ ((lines.drop (i + 1)).take 3).countP contactIndicator))

def c7Text : String :=
  "alpha\nbeta\ngamma\ndelta\nepsilon\nzeta\neta\n555-123-4567\nhello\nwww.example.com\nhttp://a.b"

/-- Claim C7 (counterexample): eleven lines with a phone-pattern line at
index 7 (inside the last forty percent), whose own window lines 7 to 9
hold one contact indicator, while the next three lines 8 to 10 hold two.
The source keeps the whole text, the claim as written cuts at line 7. -/
theorem claimC7_counterexample :
    remove_signature c7Text ≠ remove_signature_specWith sigDetectNextThree c7Text := by
  decide

theorem findSigStartAux_spec (lines : List String) :
    ∀ (n i : Nat), i + n = lines.length →
      findSigStartAux lines i (lines.drop i) =
        (List.range' i n).find? (fun j => sigDetectAt lines j (lines[j]?.getD "")) := by
  intro n
  induction n with
  | zero =>
    intro i hi
    have hdrop : lines.drop i = [] := by
      apply List.drop_eq_nil_of_le
      omega
    rw [hdrop]
    simp [findSigStartAux, List.range']
  | succ n ih =>
    intro i hi
    have hlt : i < lines.length := by omega
    have hget : lines[i]?.getD "" = lines[i] := by
      rw [List.getElem?_eq_getElem hlt]
      rfl
    rw [List.drop_eq_getElem_cons hlt]
    simp only [findSigStartAux, List.range', List.find?]
    rw [hget]
    by_cases h : sigDetectAt lines i lines[i]
    · simp [h]
    · simp only [h]
      simpa [h] using ih (i + 1) (by omega)

/-- Claim C7 (amended: the phone-heuristic window is the three lines
starting at the phone line itself, lines i to i+2, rather than the next
three lines): remove_signature truncates to all lines strictly before
the least line index at which detection fires, scanning top to bottom,
where detection at index i is a delimiter-pattern match on line i, or,
only past sixty percent of the lines, a phone-pattern line with at least
two contact-indicator lines among lines i to i+2; when nothing is
detected all lines are kept.  In particular a body ending with a Regards
closing, a name and a phone number is cut at the line before the
closing. -/
theorem claimC7 :
    (∀ text, remove_signature text = remove_signature_specWith sigDetectAt text) ∧
    remove_signature "Hello team.\nHere is the content.\nRegards,\nJohn\n555-123-4567" =
      "Hello team.\nHere is the content." := by
  constructor
  · intro text
    have h := findSigStartAux_spec (splitLines text) (splitLines text).length 0 (by omega)
    rw [List.drop_zero] at h
    show (match findSigStartAux (splitLines text) 0 (splitLines text) with
      | some i => String.intercalate "\n" ((splitLines text).take i)
      | none => text) =
      (match (List.range (splitLines text).length).find?
          (fun i => sigDetectAt (splitLines text) i ((splitLines text)[i]?.getD "")) with
      | some i => String.intercalate "\n" ((splitLines text).take i)
      | none => text)
    rw [h, List.range_eq_range']
  · decide

theorem objFind_isSome_any (entries : List (String × Json)) (k : String) :
    (objFind entries k).isSome = entries.any (fun e => e.fst = k) := by
  rcases h : entries.find? (fun e => e.fst = k) with _ | v
  · simp only [objFind, h, Option.map_none', Option.isSome_none]
    rw [List.find?_eq_none] at h
    symm
    rw [List.any_eq_false]
    simpa using h
  · simp only [objFind, h, Option.map_some', Option.isSome_some]
    symm
    rw [List.any_eq_true]
    exact ⟨v, List.mem_of_find?_eq_some h, by simpa using List.find?_some h⟩

def c8Email : CleanedEmail :=
  ⟨"m8", "dave@example.com", "Plans", wNow, "See below.", [], 10, 10⟩

def c8Resp : String :=
  "Sure! \x7b\"summary\":\"x\",\"actions\":[],\"deadlines\":[\"2025-01-01\"]\x7d thanks"

/-- Claim C8: the parser looks only at the substring from the first
opening to the last closing brace; absence of either brace is a hard
ValueError, a parsed object without the summary key is a hard ValueError,
a present summary is passed through while a missing actions or deadlines
key defaults to an empty list, the deadline entries are parsed
independently with unparsable ones dropped (collectDeadlines), and the
concrete spec example parses to summary x with the single date. -/
theorem claimC8 :
    (∀ (resp : String) (now : DateTime) (mn : String) (email : CleanedEmail),
      jsonSubstring resp = none →
      parse_response now mn resp email = .error ⟨"ValueError", "No JSON found in response"⟩) ∧
    (∀ (resp sub : String) (entries : List (String × Json)) (now : DateTime) (mn : String)
        (email : CleanedEmail),
      jsonSubstring resp = some sub → jsonLoads sub = some (Json.obj entries) →
      entries.any (fun e => e.fst = "summary") = false →
      parse_response now mn resp email = .error ⟨"ValueError", "Missing summary field"⟩) ∧
    (∀ (resp sub : String) (entries : List (String × Json)) (now : DateTime) (mn : String)
        (email : CleanedEmail) (sv : Json) (ds : List Json),
      jsonSubstring resp = some sub → jsonLoads sub = some (Json.obj entries) →
      objFind entries "summary" = some sv →
      (objFind entries "deadlines").getD (Json.arr []) = Json.arr ds →
      parse_response now mn resp email =
        .ok { message_id := email.message_id, sender := email.sender,
              subject := email.subject, received_at := email.received_at,
              summary := sv,
              actions := (objFind entries "actions").getD (Json.arr []),
              deadlines := collectDeadlines ds,
              created_at := now, model_used := mn, feedback := none }) ∧
    parse_response wNow "openai/gpt-3.5-turbo" c8Resp c8Email =
      .ok { message_id := "m8", sender := "dave@example.com", subject := "Plans",
            received_at := wNow, summary := Json.str "x", actions := Json.arr [],
            deadlines := [⟨2025, 1, 1⟩], created_at := wNow,
            model_used := "openai/gpt-3.5-turbo", feedback := none } := by
  refine ⟨?_, ?_, ?_, ?_⟩
  · intro resp now mn email hsub
    unfold parse_response
    rw [hsub]
  · intro resp sub entries now mn email hsub hload hany
    unfold parse_response
    simp only [hsub, hload]
    simp [pyInJson, hany]
  · intro resp sub entries now mn email sv ds hsub hload hsv hd
    unfold parse_response
    simp only [hsub, hload]
    have hanyS : entries.any (fun e => e.fst = "summary") = true := by
      rw [← objFind_isSome_any, hsv]
      rfl
    simp only [pyInJson, hanyS, Bool.true_eq_false, if_false]
    rcases hA : objFind entries "actions" with _ | av
    · have hanyA : entries.any (fun e => e.fst = "actions") = false := by
        rw [← objFind_isSome_any, hA]
        rfl
      rcases hD : objFind entries "deadlines" with _ | dv
      · have hanyD : entries.any (fun e => e.fst = "deadlines") = false := by
          rw [← objFind_isSome_any, hD]
          rfl
        rw [hD] at hd
        simp only [Option.getD_none] at hd
        injection hd with hds
        subst hds
        simp [pyInJson, pyGetItem, pyIterJson, hanyA, hanyD, hA, hsv,
          Bind.bind, Except.bind, pure, Except.pure]
      · have hanyD : entries.any (fun e => e.fst = "deadlines") = true := by
          rw [← objFind_isSome_any, hD]
          rfl
        rw [hD] at hd
        simp only [Option.getD_some] at hd
        subst hd
        simp [pyInJson, pyGetItem, pyIterJson, hanyA, hanyD, hA, hD, hsv,
          Bind.bind, Except.bind, pure, Except.pure]
    · have hanyA : entries.any (fun e => e.fst = "actions") = true := by
        rw [← objFind_isSome_any, hA]
        rfl
      rcases hD : objFind entries "deadlines" with _ | dv
      · have hanyD : entries.any (fun e => e.fst = "deadlines") = false := by
          rw [← objFind_isSome_any, hD]
          rfl
        rw [hD] at hd
        simp only [Option.getD_none] at hd
        injection hd with hds
        subst hds
        simp [pyInJson, pyGetItem, pyIterJson, hanyA, hanyD, hA, hsv,
          Bind.bind, Except.bind, pure, Except.pure]
      · have hanyD : entries.any (fun e => e.fst = "deadlines") = true := by
          rw [← objFind_isSome_any, hD]
          rfl
        rw [hD] at hd
        simp only [Option.getD_some] at hd
        subst hd
        simp [pyInJson, pyGetItem, pyIterJson, hanyA, hanyD, hA, hD, hsv,
          Bind.bind, Except.bind, pure, Except.pure]
  · rfl

/-- Witness for claim C8: the hard-failure clause applied at a braceless
response, and the default-and-drop clause applied at a response whose
deadlines hold one valid date, one malformed string and one number. -/
theorem claimC8_witness :
    parse_response wNow "openai/gpt-3.5-turbo" "no structure here" c8Email =
      .error ⟨"ValueError", "No JSON found in response"⟩ ∧
    parse_response wNow "openai/gpt-3.5-turbo"
        "\x7b\"summary\":\"y\",\"deadlines\":[\"2025-01-01\",\"bogus\",17]\x7d" c8Email =
      .ok { message_id := "m8", sender := "dave@example.com", subject := "Plans",
            received_at := wNow, summary := Json.str "y", actions := Json.arr [],
            deadlines := [⟨2025, 1, 1⟩], created_at := wNow,
            model_used := "openai/gpt-3.5-turbo", feedback := none } := by
  constructor
  · exact claimC8.1 "no structure here" wNow "openai/gpt-3.5-turbo" c8Email rfl
  · have h := claimC8.2.2.1
      "\x7b\"summary\":\"y\",\"deadlines\":[\"2025-01-01\",\"bogus\",17]\x7d"
      "\x7b\"summary\":\"y\",\"deadlines\":[\"2025-01-01\",\"bogus\",17]\x7d"
      [("summary", Json.str "y"),
       ("deadlines", Json.arr [Json.str "2025-01-01", Json.str "bogus", Json.num "17"])]
      wNow "openai/gpt-3.5-turbo" c8Email (Json.str "y")
      [Json.str "2025-01-01", Json.str "bogus", Json.num "17"] rfl rfl rfl rfl
    rw [h]
    rfl

theorem extractAccum_inv (parseDate : String → Option Date) (today : Date) :
    ∀ (cands : List String) (acc : List Date), acc.Nodup → (∀ d ∈ acc, Date.le today d) →
      (cands.foldl (fun acc c =>
        match parseDate c with
        | some d => if d ∉ acc ∧ Date.le today d then acc ++ [d] else acc
        | none => acc) acc).Nodup ∧
      ∀ d ∈ cands.foldl (fun acc c =>
        match parseDate c with
        | some d => if d ∉ acc ∧ Date.le today d then acc ++ [d] else acc
        | none => acc) acc, Date.le today d := by
  intro cands
  induction cands with
  | nil => intro acc h1 h2; exact ⟨h1, h2⟩
  | cons c rest ih =>
    intro acc h1 h2
    simp only [List.foldl_cons]
    cases hp : parseDate c with
    | none => exact ih acc h1 h2
    | some d =>
      by_cases hc : d ∉ acc ∧ Date.le today d
      · simp only [if_pos hc]
        apply ih
        · rw [List.nodup_append]
          refine ⟨h1, List.nodup_singleton d, ?_⟩
          intro x hx hxd
          rw [List.mem_singleton] at hxd
          subst hxd
          exact hc.1 hx
        · intro x hx
          rcases List.mem_append.mp hx with h | h
          · exact h2 x h
          · rw [List.mem_singleton] at h
            subst h
            exact hc.2
      · simp only [if_neg hc]
        exact ih acc h1 h2

theorem sortedCapProps (today : Date) (dl : List Date) (hnd : dl.Nodup)
    (hge : ∀ d ∈ dl, Date.le today d) :
    (∀ d ∈ (List.insertionSort Date.le dl).take 3, Date.le today d) ∧
    ((List.insertionSort Date.le dl).take 3).length ≤ 3 ∧
    ((List.insertionSort Date.le dl).take 3).Pairwise Date.lt := by
  have hperm := List.perm_insertionSort Date.le dl
  have hnd2 : (List.insertionSort Date.le dl).Nodup := (List.Perm.nodup_iff hperm).mpr hnd
  have hsorted : List.Sorted Date.le (List.insertionSort Date.le dl) :=
    List.sorted_insertionSort Date.le dl
  refine ⟨?_, ?_, ?_⟩
  · intro d hd
    exact hge d (hperm.subset (List.mem_of_mem_take hd))
  · exact List.length_take_le 3 _
  · have hlt : (List.insertionSort Date.le dl).Pairwise Date.lt :=
      (hsorted.and hnd2).imp (fun h => ⟨h.1, h.2⟩)
    exact hlt.sublist (List.take_sublist 3 _)

/-- Claim C9: for every text, every current date and every external date
parser, the local deadline extraction returns only dates at or after
today, at most three of them, strictly ascending with no duplicates. -/
theorem claimC9 (parseDate : String → Option Date) (today : Date) (text : String) :
    (∀ d ∈ extract_deadlines parseDate today text, Date.le today d) ∧
    (extract_deadlines parseDate today text).length ≤ 3 ∧
    (extract_deadlines parseDate today text).Pairwise Date.lt := by
  have h := extractAccum_inv parseDate today
    (findAllPat matchIsoAt text ++ findAllPat matchUsAt text ++ findAllPat matchMonthAt text)
    [] List.nodup_nil (by simp)
  exact sortedCapProps today _ h.1 h.2

theorem inJsonGet_step (entries : List (String × Json)) (k : String) :
    ((do
      let has ← Except.ok (entries.any fun e => decide (e.fst = k))
      if has = true then pyGetItem (Json.obj entries) k else pure (Json.arr []))
      : Except PyExn Json) =
      Except.ok ((objFind entries k).getD (Json.arr [])) := by
  rcases h : objFind entries k with _ | v
  · have ha : entries.any (fun e => e.fst = k) = false := by
      rw [← objFind_isSome_any, h]
      rfl
    simp [ha, h, Bind.bind, Except.bind, pure, Except.pure]
  · have ha : entries.any (fun e => e.fst = k) = true := by
      rw [← objFind_isSome_any, h]
      rfl
    simp [pyGetItem, ha, h, Bind.bind, Except.bind, pure, Except.pure]

theorem parse_response_obj (now : DateTime) (mn : String) (resp sub : String)
    (entries : List (String × Json)) (email : CleanedEmail)
    (hsub : jsonSubstring resp = some sub)
    (hload : jsonLoads sub = some (Json.obj entries)) :
    parse_response now mn resp email =
      match objFind entries "summary" with
      | none => .error ⟨"ValueError", "Missing summary field"⟩
      | some sv =>
        match pyIterJson ((objFind entries "deadlines").getD (Json.arr [])) with
        | .error e => .error e
        | .ok elems =>
          .ok { message_id := email.message_id, sender := email.sender,
                subject := email.subject, received_at := email.received_at,
                summary := sv,
                actions := (objFind entries "actions").getD (Json.arr []),
                deadlines := collectDeadlines elems,
                created_at := now, model_used := mn, feedback := none } := by
  unfold parse_response
  simp only [hsub, hload]
  rcases hsv : objFind entries "summary" with _ | sv
  · have ha : entries.any (fun e => e.fst = "summary") = false := by
      rw [← objFind_isSome_any, hsv]
      rfl
    simp [pyInJson, ha]
  · have ha : entries.any (fun e => e.fst = "summary") = true := by
      rw [← objFind_isSome_any, hsv]
      rfl
    simp only [pyInJson, ha, Bool.true_eq_false, if_false]
    rw [inJsonGet_step entries "actions", inJsonGet_step entries "deadlines"]
    rcases hit : pyIterJson ((objFind entries "deadlines").getD (Json.arr [])) with e | elems
    · simp [hit, pyGetItem, hsv, Bind.bind, Except.bind, pure, Except.pure]
    · simp [hit, pyGetItem, hsv, Bind.bind, Except.bind, pure, Except.pure]

/-- The deadlines the remote parse path produces for a response, read
directly off the response: iterate the deadlines slot of the parsed
object (defaulted to an empty list) and keep the parsable entries in
order. -/
def remoteDeadlinesOf (resp : String) : List Date :=
  match jsonSubstring resp with
  | none => []
  | some sub =>
    match jsonLoads sub with
    | some (Json.obj entries) =>
      match pyIterJson ((objFind entries "deadlines").getD (Json.arr [])) with
      | .ok elems => collectDeadlines elems
      | .error _ => []
    | _ => []

def c5Resp : String :=
  "\x7b\"summary\":\"x\",\"actions\":[],\"deadlines\":[\"2025-01-02\",\"2025-01-01\"]\x7d"

/-- Claim C5 (counterexample): the remote parse path keeps the deadlines
in response order, so a response listing January 2 before January 1
yields a deadlines list that is not ascending. -/
theorem claimC5_counterexample :
    (match parse_response wNow "openai/gpt-3.5-turbo" c5Resp c8Email with
      | .ok s => s.deadlines
      | .error _ => []) = [⟨2025, 1, 2⟩, ⟨2025, 1, 1⟩] ∧
    ¬ ([(⟨2025, 1, 2⟩ : Date), ⟨2025, 1, 1⟩].Pairwise Date.lt) := by
  constructor
  · rfl
  · intro hp
    have h := (List.pairwise_cons.mp hp).1 ⟨2025, 1, 1⟩ (List.mem_singleton_self _)
    exact absurd h.1 (by decide)

/-- Claim C5 (amended: the deadlines of the local path and of the remote
fallback path are ascending and deduplicated; the remote parse path keeps
the parsable response entries in response order, with no sorting or
deduplication): strict ascent for the local extraction, an empty list for
the fallback, and response-order deadlines for the successful remote
parse. -/
theorem claimC5 :
    (∀ (parseDate : String → Option Date) (today : Date) (text : String),
      (extract_deadlines parseDate today text).Pairwise Date.lt) ∧
    (∀ (r : RemoteSummarizer) (now : DateTime) (email : CleanedEmail),
      (fallbackSummary r now email).deadlines = []) ∧
    (∀ (resp sub : String) (entries : List (String × Json)) (now : DateTime) (mn : String)
        (email : CleanedEmail) (s : EmailSummary),
      jsonSubstring resp = some sub → jsonLoads sub = some (Json.obj entries) →
      parse_response now mn resp email = .ok s →
      s.deadlines = remoteDeadlinesOf resp) := by
  refine ⟨?_, ?_, ?_⟩
  · intro parseDate today text
    have h := extractAccum_inv parseDate today
      (findAllPat matchIsoAt text ++ findAllPat matchUsAt text ++ findAllPat matchMonthAt text)
      [] List.nodup_nil (by simp)
    exact (sortedCapProps today _ h.1 h.2).2.2
  · intro r now email
    rfl
  · intro resp sub entries now mn email s hsub hload h
    rw [parse_response_obj now mn resp sub entries email hsub hload] at h
    unfold remoteDeadlinesOf
    simp only [hsub, hload]
    rcases hsv : objFind entries "summary" with _ | sv
    · rw [hsv] at h
      exact absurd h (by simp)
    · rw [hsv] at h
      rcases hit : pyIterJson ((objFind entries "deadlines").getD (Json.arr [])) with e | elems
    
      · rw [hit] at h
        exact absurd h (by simp)
      · rw [hit] at h
        cases h
        rfl

/-- Witness for claim C5: the response-order clause applied at the
concrete out-of-order response. -/
theorem claimC5_witness :
    (⟨"m8", "dave@example.com", "Plans", wNow, Json.str "x", Json.arr [],
       [⟨2025, 1, 2⟩, ⟨2025, 1, 1⟩], wNow, "openai/gpt-3.5-turbo", none⟩ : EmailSummary).deadlines
      = remoteDeadlinesOf c5Resp := by
  exact claimC5.2.2 c5Resp c5Resp
    [("summary", Json.str "x"), ("actions", Json.arr []),
     ("deadlines", Json.arr [Json.str "2025-01-02", Json.str "2025-01-01"])]
    wNow "openai/gpt-3.5-turbo" c8Email _ rfl rfl rfl
